import Mathlib

/-! Verification of the response orchestration pipeline of the English
Learning Assistant (src/app.py): request throttling, prompt construction,
section extraction from the model reply, speech-text normalization and
the input dispatch. Python strings are modelled as `List Char`. -/

set_option maxRecDepth 16000

namespace EnglishAssistant

/-! ### Python string primitives, modelled over `List Char` -/

/-- Model of Python `str.lower()` (character-wise case folding). -/
def pyLower (s : List Char) : List Char := s.map Char.toLower

/-- Model of Python `str.strip()`: drop whitespace from both ends. -/
def pyStrip (s : List Char) : List Char :=
  ((s.dropWhile Char.isWhitespace).reverse.dropWhile Char.isWhitespace).reverse

/-- Push a character onto the first fragment of a fragment list. -/
def consHead (c : Char) : List (List Char) → List (List Char)
  | [] => [[c]]
  | f :: fs => (c :: f) :: fs

/-- Fuel-indexed worker for `pySplit`: scan left to right, cutting at the
leftmost occurrence of `sep` each time.  The fuel only serves structural
termination; `fuel ≥ s.length` makes it exact. -/
def pySplitAux (sep : List Char) : Nat → List Char → List (List Char)
  | 0, s => [s]
  | fuel + 1, s =>
    match s with
    | [] => [[]]
    | c :: rest =>
      if sep <+: c :: rest then
        [] :: pySplitAux sep fuel ((c :: rest).drop sep.length)
      else
        consHead c (pySplitAux sep fuel rest)

/-- Model of Python `str.split(sep)` for a non-empty separator: fragments
between consecutive non-overlapping occurrences of `sep`, empties kept. -/
def pySplit (sep s : List Char) : List (List Char) := pySplitAux sep s.length s

/-- Model of Python `sep.join(parts)`. -/
def joinWith (sep : List Char) : List (List Char) → List Char
  | [] => []
  | [w] => w
  | w :: ws => w ++ sep ++ joinWith sep ws

/-- Negation of the whitespace test, used by `pyWordsAux`. -/
def notWS (c : Char) : Bool := !c.isWhitespace

/-- Fuel-indexed worker for `pyWords`; `fuel > s.length` makes it exact. -/
def pyWordsAux : Nat → List Char → List (List Char)
  | 0, _ => []
  | fuel + 1, s =>
    match s.dropWhile Char.isWhitespace with
    | [] => []
    | c :: tl => (c :: tl.takeWhile notWS) :: pyWordsAux fuel (tl.dropWhile notWS)

/-- Model of Python `str.split()` with no argument: the maximal runs of
non-whitespace characters, in order. -/
def pyWords (s : List Char) : List (List Char) := pyWordsAux (s.length + 1) s

/-- Model of Python `str.replace(c, "")` for a one-character pattern:
delete every occurrence of the character. -/
def removeChar (x : Char) (s : List Char) : List Char := s.filter (fun c => c != x)

/-! ### `extract_section` (src/app.py lines 285-291) -/

/-- The fixed three-character section delimiter of `extract_section`. -/
def hashMarker : List Char := "###".toList

/-- The literal fallback value of `extract_section`. -/
def sectionNotFound : List Char := "Section not found.".toList

/-- Model of the Python substring test `pat in s`: `pat` occurs
contiguously somewhere in `s`. -/
def containsSub (pat : List Char) : List Char → Bool
  | [] => decide (pat = [])
  | c :: rest => pat.isPrefixOf (c :: rest) || containsSub pat rest

/-- The per-fragment test `title.lower() in sec.lower()` of src/app.py
line 289: case-insensitive substring containment. -/
def sectionMatches (title sec : List Char) : Bool :=
  containsSub (pyLower title) (pyLower sec)

/-- Embedding of `extract_section` (src/app.py lines 285-291): split the
response on `"###"`, return the first fragment matching the title,
stripped; otherwise the literal fallback. -/
def extract_section (response title : List Char) : List Char :=
  match (pySplit hashMarker response).find? (fun sec => sectionMatches title sec) with
  | some sec => pyStrip sec
  | none => sectionNotFound

example :
    extract_section ("### Translation\nfoo\n### Pronunciation Guide\nbar".toList)
      ("Translation".toList) = ("Translation\nfoo".toList) := by decide

example :
    extract_section ("no markers here".toList) ("Translation".toList)
      = sectionNotFound := by decide

/-- Plain rewording of the spec paragraph on `extract_section`: take the
fragments of the split, keep the matching ones, return the first of them
stripped, with the literal fallback when none matches. -/
def extract_section_spec (response title : List Char) : List Char :=
  match ((pySplit hashMarker response).filter (fun sec => sectionMatches title sec)).head? with
  | some sec => pyStrip sec
  | none => sectionNotFound

/-! ### Fragment lemmas for `pySplit` -/

theorem consHead_ne_nil (c : Char) (l : List (List Char)) : consHead c l ≠ [] := by
  cases l <;> simp [consHead]

theorem pySplitAux_ne_nil (sep : List Char) (fuel : Nat) (s : List Char) :
    pySplitAux sep fuel s ≠ [] := by
  cases fuel with
  | zero => simp [pySplitAux]
  | succ fuel =>
    cases s with
    | nil => simp [pySplitAux]
    | cons c rest =>
      simp only [pySplitAux]
      split
      · simp
      · exact consHead_ne_nil c _

/-- The first fragment produced by `pySplitAux` starts the input. -/
theorem pySplitAux_head (sep : List Char) (fuel : Nat) :
    ∀ (s f : List Char) (fs : List (List Char)),
      pySplitAux sep fuel s = f :: fs → f <+: s := by
  induction fuel with
  | zero =>
    intro s f fs h
    simp only [pySplitAux] at h
    injection h with h1 h2
    subst h1
    exact List.prefix_refl _
  | succ fuel ih =>
    intro s f fs h
    cases s with
    | nil =>
      simp only [pySplitAux] at h
      injection h with h1 h2
      exact h1 ▸ List.nil_prefix
    | cons c rest =>
      simp only [pySplitAux] at h
      split at h
      · injection h with h1 h2
        exact h1 ▸ List.nil_prefix
      · cases hin : pySplitAux sep fuel rest with
        | nil => exact absurd hin (pySplitAux_ne_nil sep fuel rest)
        | cons f' fs' =>
          rw [hin] at h
          simp only [consHead] at h
          injection h with h1 h2
          rw [← h1]
          exact List.cons_prefix_cons.2 ⟨rfl, ih rest f' fs' hin⟩

/-- No fragment produced by `pySplitAux` contains the separator. -/
theorem pySplitAux_not_contains (sep : List Char) (hsep : sep ≠ []) (fuel : Nat) :
    ∀ s : List Char, s.length ≤ fuel →
      ∀ frag ∈ pySplitAux sep fuel s, ¬ sep <:+: frag := by
  induction fuel with
  | zero =>
    intro s hlen frag hfrag hinf
    have hs : s = [] := List.eq_nil_of_length_eq_zero (Nat.le_zero.mp hlen)
    subst hs
    simp only [pySplitAux, List.mem_singleton] at hfrag
    subst hfrag
    exact hsep (List.infix_nil.mp hinf)
  | succ fuel ih =>
    intro s hlen frag hfrag hinf
    cases s with
    | nil =>
      simp only [pySplitAux, List.mem_singleton] at hfrag
      subst hfrag
      exact hsep (List.infix_nil.mp hinf)
    | cons c rest =>
      simp only [pySplitAux] at hfrag
      have hlen' : rest.length ≤ fuel := by
        simp only [List.length_cons] at hlen
        omega
      by_cases hpre : sep <+: c :: rest
      · rw [if_pos hpre] at hfrag
        rcases List.mem_cons.mp hfrag with rfl | hmem
        · exact hsep (List.infix_nil.mp hinf)
        · refine ih _ ?_ frag hmem hinf
          have h1 : 1 ≤ sep.length := by
            cases sep with
            | nil => exact absurd rfl hsep
            | cons a b => simp
          rw [List.length_drop]
          simp only [List.length_cons]
          omega
      · rw [if_neg hpre] at hfrag
        cases hin : pySplitAux sep fuel rest with
        | nil => exact absurd hin (pySplitAux_ne_nil sep fuel rest)
        | cons f' fs' =>
          rw [hin] at hfrag
          simp only [consHead] at hfrag
          rcases List.mem_cons.mp hfrag with rfl | hmem
          · rcases List.infix_cons_iff.mp hinf with hp | hi
            · have hf' : f' <+: rest := pySplitAux_head sep fuel rest f' fs' hin
              exact hpre (hp.trans (List.cons_prefix_cons.2 ⟨rfl, hf'⟩))
            · exact ih rest hlen' f' (by rw [hin]; exact List.mem_cons_self f' fs') hi
          · exact ih rest hlen' frag (by rw [hin]; exact List.mem_cons_of_mem f' hmem) hinf

/-- Stripping whitespace from both ends keeps a contiguous piece. -/
theorem pyStrip_contiguous (s : List Char) : pyStrip s <:+: s := by
  have h1 : s.dropWhile Char.isWhitespace <:+ s := List.dropWhile_suffix _
  obtain ⟨t, ht⟩ :
      (s.dropWhile Char.isWhitespace).reverse.dropWhile Char.isWhitespace
        <:+ (s.dropWhile Char.isWhitespace).reverse := List.dropWhile_suffix _
  have h3 : pyStrip s <+: s.dropWhile Char.isWhitespace := by
    refine ⟨t.reverse, ?_⟩
    have h4 := congrArg List.reverse ht
    simpa [pyStrip] using h4
  exact h3.isInfix.trans h1.isInfix

theorem extract_section_eq_of_found (response title sec : List Char)
    (h : (pySplit hashMarker response).find? (fun s => sectionMatches title s) = some sec) :
    extract_section response title = pyStrip sec := by
  unfold extract_section
  rw [h]

theorem extract_section_eq_of_not_found (response title : List Char)
    (h : (pySplit hashMarker response).find? (fun s => sectionMatches title s) = none) :
    extract_section response title = sectionNotFound := by
  unfold extract_section
  rw [h]

theorem find?_eq_head?_filter {α : Type} (p : α → Bool) (l : List α) :
    l.find? p = (l.filter p).head? := by
  induction l with
  | nil => rfl
  | cons a l ih =>
    cases h : p a with
    | true =>
      rw [List.find?_cons_of_pos _ h, List.filter_cons_of_pos h, List.head?_cons]
    | false =>
      have h' : ¬ p a := by simp [h]
      rw [List.find?_cons_of_neg _ h', List.filter_cons_of_neg h', ih]

/-! ### Claims about `extract_section` -/

/-- Claim C3: `extract_section` splits the raw text on the fixed
three-character delimiter `"###"`, matches the section name
case-insensitively against each fragment as a substring, and returns the
first matching fragment in split order, trimmed of surrounding
whitespace — stated as agreement with the spec-worded formulation. -/
theorem C3_extract_section_first_match :
    hashMarker = ("###".toList)
      ∧ ∀ response title : List Char,
          extract_section response title = extract_section_spec response title := by
  refine ⟨rfl, fun response title => ?_⟩
  unfold extract_section extract_section_spec
  rw [find?_eq_head?_filter]

/-- Claim C4: when no fragment of the `"###"` split matches the section
name case-insensitively, `extract_section` returns exactly the literal
string `"Section not found."`. -/
theorem C4_extract_section_fallback (response title : List Char)
    (h : ∀ sec ∈ pySplit hashMarker response, sectionMatches title sec = false) :
    extract_section response title = sectionNotFound := by
  apply extract_section_eq_of_not_found
  exact List.find?_eq_none.mpr (fun x hx => by simp [h x hx])

theorem C4_extract_section_fallback_witness :
    (∀ sec ∈ pySplit hashMarker ("hello world".toList),
        sectionMatches ("Translation".toList) sec = false)
      ∧ extract_section ("hello world".toList) ("Translation".toList) = sectionNotFound :=
  ⟨by decide, C4_extract_section_fallback ("hello world".toList) ("Translation".toList) (by decide)⟩

/-- Claim C9: `extract_section` is deterministic — two calls on the same
response and section name return the same output. -/
theorem C9_extract_section_idempotent (response title : List Char) :
    extract_section response title = extract_section response title := rfl

/-- Claim C10: the value returned by `extract_section` never contains the
delimiter `"###"`: splitting removes every occurrence from each fragment,
stripping keeps a contiguous piece, and the fallback has none. -/
theorem C10_extract_section_result_no_marker (response title : List Char) :
    ¬ hashMarker <:+: extract_section response title := by
  intro hinf
  cases hfind : (pySplit hashMarker response).find? (fun s => sectionMatches title s) with
  | none =>
    rw [extract_section_eq_of_not_found response title hfind] at hinf
    exact absurd hinf (by decide)
  | some sec =>
    rw [extract_section_eq_of_found response title sec hfind] at hinf
    have hmem : sec ∈ pySplit hashMarker response := List.mem_of_find?_eq_some hfind
    have hnot := pySplitAux_not_contains hashMarker (by decide) response.length
      response (Nat.le_refl _) sec hmem
    exact hnot (hinf.trans (pyStrip_contiguous sec))

/-! ### `text_to_speech` normalization (src/app.py lines 271-272) -/

/-- The normalization step of `text_to_speech`: `" ".join(text.split())`
followed by deleting every `*` and then every `#`. -/
def clean_text (text : List Char) : List Char :=
  removeChar '#' (removeChar '*' (joinWith [' '] (pyWords text)))

theorem dropWhile_head_false (p : Char → Bool) :
    ∀ (s : List Char) (c : Char) (tl : List Char),
      s.dropWhile p = c :: tl → p c = false := by
  intro s
  induction s with
  | nil => intro c tl h; simp [List.dropWhile] at h
  | cons a s ih =>
    intro c tl h
    cases ha : p a with
    | true =>
      rw [List.dropWhile_cons_of_pos ha] at h
      exact ih c tl h
    | false =>
      rw [List.dropWhile_cons_of_neg (by simp [ha])] at h
      injection h with h1 h2
      rw [← h1]
      exact ha

theorem pyWordsAux_eq_nil_of (fuel : Nat) (s : List Char)
    (hd : s.dropWhile Char.isWhitespace = []) : pyWordsAux (fuel + 1) s = [] := by
  unfold pyWordsAux
  rw [hd]

theorem pyWordsAux_eq_cons_of (fuel : Nat) (s : List Char) (c : Char) (tl : List Char)
    (hd : s.dropWhile Char.isWhitespace = c :: tl) :
    pyWordsAux (fuel + 1) s
      = (c :: tl.takeWhile notWS) :: pyWordsAux fuel (tl.dropWhile notWS) := by
  conv_lhs => rw [pyWordsAux]
  rw [hd]

/-- Every word produced by `pyWordsAux` is non-empty and free of
whitespace characters. -/
theorem pyWordsAux_sound (fuel : Nat) :
    ∀ (s : List Char) (w : List Char), w ∈ pyWordsAux fuel s →
      w ≠ [] ∧ ∀ c ∈ w, notWS c := by
  induction fuel with
  | zero => intro s w hw; simp [pyWordsAux] at hw
  | succ fuel ih =>
    intro s w hw
    cases hd : s.dropWhile Char.isWhitespace with
    | nil =>
      rw [pyWordsAux_eq_nil_of fuel s hd] at hw
      simp at hw
    | cons c tl =>
      rw [pyWordsAux_eq_cons_of fuel s c tl hd] at hw
      rcases List.mem_cons.mp hw with rfl | hmem
      · refine ⟨by simp, fun x hx => ?_⟩
        rcases List.mem_cons.mp hx with rfl | hx'
        · have hc := dropWhile_head_false Char.isWhitespace s x tl hd
          simp [notWS, hc]
        · exact List.mem_takeWhile_imp hx'
      · exact ih _ w hmem

/-- A character of a space-joined word list is a space or sits in one of
the words. -/
theorem mem_joinWith_space {c : Char} :
    ∀ ws : List (List Char), c ∈ joinWith [' '] ws →
      (∃ w ∈ ws, c ∈ w) ∨ c = ' ' := by
  intro ws
  induction ws with
  | nil => intro h; simp [joinWith] at h
  | cons w ws ih =>
    intro h
    cases ws with
    | nil =>
      left
      exact ⟨w, by simp, by simpa [joinWith] using h⟩
    | cons v vs =>
      simp only [joinWith] at h
      rcases List.mem_append.mp h with h1 | h2
      · rcases List.mem_append.mp h1 with ha | hb
        · exact Or.inl ⟨w, List.mem_cons_self w _, ha⟩
        · right; simpa using hb
      · rcases ih h2 with ⟨u, hu, hcu⟩ | hs
        · exact Or.inl ⟨u, List.mem_cons_of_mem w hu, hcu⟩
        · exact Or.inr hs

/-- Claim C5: the speech normalization joins the whitespace-separated
words of the text with single spaces and deletes every `*` and `#`; on
`"Hello **world** #1"` it yields exactly `"Hello world 1"`, and in
general the result holds no `*`, no `#`, and no whitespace character
other than the plain space. -/
theorem C5_clean_text_normalization :
    clean_text ("Hello **world** #1".toList) = ("Hello world 1".toList)
      ∧ ∀ text : List Char,
          '*' ∉ clean_text text ∧ '#' ∉ clean_text text
            ∧ ∀ c ∈ clean_text text, c.isWhitespace → c = ' ' := by
  refine ⟨by decide, fun text => ⟨?_, ?_, ?_⟩⟩
  · intro h
    simp [clean_text, removeChar, List.mem_filter] at h
  · intro h
    simp [clean_text, removeChar, List.mem_filter] at h
  · intro c hc hw
    have hcJ : c ∈ joinWith [' '] (pyWords text) := by
      simp only [clean_text, removeChar, List.mem_filter] at hc
      exact hc.1.1
    rcases mem_joinWith_space (pyWords text) hcJ with ⟨w, hw', hcw⟩ | rfl
    · have hns := (pyWordsAux_sound _ _ w hw').2 c hcw
      simp [notWS, hw] at hns
    · rfl

theorem C5_clean_text_normalization_witness :
    ('*' ∉ clean_text ("ab".toList)) ∧ (' ' = ' ') :=
  ⟨(C5_clean_text_normalization.2 ("ab".toList)).1,
   (C5_clean_text_normalization.2 ("a b".toList)).2.2 ' ' (by decide) (by decide)⟩

/-! ### Throttling in `process_text_with_model` (src/app.py lines 256-265) -/

/-- `RATE_LIMIT_SECONDS = 2` (src/app.py line 218). -/
def RATE_LIMIT_SECONDS : ℚ := 2

/-- The session state holding `last_request_time` (initialized to 0 at
line 215). -/
structure ThrottleState where
  last_request_time : ℚ
deriving DecidableEq

/-- The sleep decided on src/app.py lines 259-260: when less than
`RATE_LIMIT_SECONDS` elapsed since the recorded last request, the code
sleeps the full `RATE_LIMIT_SECONDS`; otherwise it does not sleep. -/
def throttle_sleep (st : ThrottleState) (now : ℚ) : ℚ :=
  if now - st.last_request_time < RATE_LIMIT_SECONDS then RATE_LIMIT_SECONDS else 0

/-- Timing model of `process_text_with_model`: invoked at clock `now`, it
sleeps `throttle_sleep st now`, stores the post-sleep clock into
`last_request_time` (line 262) and immediately starts the completion
call.  Returns the start time of the completion call and the new state. -/
def process_text_with_model (st : ThrottleState) (now : ℚ) : ℚ × ThrottleState :=
  let start := now + throttle_sleep st now
  (start, ⟨start⟩)

/-- Start times of the completion calls over a sequence of invocation
times. -/
def run_pipeline : ThrottleState → List ℚ → List ℚ
  | _, [] => []
  | st, now :: rest =>
    (process_text_with_model st now).1
      :: run_pipeline (process_text_with_model st now).2 rest

/-- Synchronous execution: each invocation happens no earlier than the
time recorded by the previous one (the previous call returned first). -/
def valid_times : ThrottleState → List ℚ → Prop
  | _, [] => True
  | st, now :: rest =>
    st.last_request_time ≤ now ∧ valid_times (process_text_with_model st now).2 rest

theorem process_start_ge (st : ThrottleState) (now : ℚ)
    (h : st.last_request_time ≤ now) :
    st.last_request_time + RATE_LIMIT_SECONDS ≤ (process_text_with_model st now).1 := by
  simp only [process_text_with_model, throttle_sleep]
  by_cases hc : now - st.last_request_time < RATE_LIMIT_SECONDS
  · rw [if_pos hc]
    linarith
  · rw [if_neg hc]
    push_neg at hc
    linarith

theorem run_pipeline_head (st : ThrottleState) (ts : List ℚ) (h : valid_times st ts) :
    ∀ b, (run_pipeline st ts).head? = some b →
      st.last_request_time + RATE_LIMIT_SECONDS ≤ b := by
  cases ts with
  | nil => intro b hb; simp [run_pipeline] at hb
  | cons now rest =>
    intro b hb
    obtain ⟨h1, h2⟩ := h
    simp only [run_pipeline, List.head?_cons, Option.some.injEq] at hb
    rw [← hb]
    exact process_start_ge st now h1

theorem run_pipeline_chain (ts : List ℚ) : ∀ st, valid_times st ts →
    List.Chain' (fun a b => a + RATE_LIMIT_SECONDS ≤ b) (run_pipeline st ts) := by
  induction ts with
  | nil => intro st _; simp [run_pipeline]
  | cons now rest ih =>
    intro st h
    obtain ⟨h1, h2⟩ := h
    simp only [run_pipeline]
    rw [List.chain'_cons']
    refine ⟨fun y hy => ?_, ih _ h2⟩
    exact run_pipeline_head _ rest h2 y (Option.mem_def.mp hy)

/-- Claim C1: under synchronous use, the start times of consecutive
completion calls are at least `RATE_LIMIT_SECONDS` apart; moreover,
whenever less than `RATE_LIMIT_SECONDS` elapsed since the recorded last
request the caller is delayed before the call starts, and the timestamp
stored after the wait equals the start time of the call. -/
theorem C1_throttle_min_gap (st : ThrottleState) (ts : List ℚ) (h : valid_times st ts) :
    List.Chain' (fun a b => a + RATE_LIMIT_SECONDS ≤ b) (run_pipeline st ts)
      ∧ ∀ (st' : ThrottleState) (now : ℚ),
          (now - st'.last_request_time < RATE_LIMIT_SECONDS →
              now < (process_text_with_model st' now).1)
            ∧ (process_text_with_model st' now).2.last_request_time
                = (process_text_with_model st' now).1 := by
  refine ⟨run_pipeline_chain ts st h, fun st' now => ⟨fun hc => ?_, rfl⟩⟩
  simp only [process_text_with_model, throttle_sleep, if_pos hc]
  have h2 : (0 : ℚ) < RATE_LIMIT_SECONDS := by norm_num [RATE_LIMIT_SECONDS]
  linarith

theorem C1_throttle_min_gap_witness :
    valid_times ⟨0⟩ [1, 4]
      ∧ List.Chain' (fun a b => a + RATE_LIMIT_SECONDS ≤ b) (run_pipeline ⟨0⟩ [1, 4]) :=
  ⟨by norm_num [valid_times, process_text_with_model, throttle_sleep, RATE_LIMIT_SECONDS],
   (C1_throttle_min_gap ⟨0⟩ [1, 4]
     (by norm_num [valid_times, process_text_with_model, throttle_sleep,
       RATE_LIMIT_SECONDS])).1⟩

/-- Claim C2 as stated is false at a concrete input: with
`last_request_time = 0` and the clock at `1`, one second elapsed (so the
remaining fraction is one second), yet the code sleeps the full two
seconds. -/
theorem C2_counterexample :
    (1 : ℚ) - (ThrottleState.mk 0).last_request_time < RATE_LIMIT_SECONDS
      ∧ throttle_sleep ⟨0⟩ 1 = RATE_LIMIT_SECONDS
      ∧ throttle_sleep ⟨0⟩ 1
          ≠ RATE_LIMIT_SECONDS - ((1 : ℚ) - (ThrottleState.mk 0).last_request_time) := by
  norm_num [throttle_sleep, RATE_LIMIT_SECONDS]

/-- Claim C2 (amended): on a throttled invocation the code suspends the
caller for the full `RATE_LIMIT_SECONDS`, regardless of how much of the
interval already elapsed. -/
theorem C2_throttle_full_sleep (st : ThrottleState) (now : ℚ)
    (h : now - st.last_request_time < RATE_LIMIT_SECONDS) :
    throttle_sleep st now = RATE_LIMIT_SECONDS := by
  unfold throttle_sleep
  rw [if_pos h]

theorem C2_throttle_full_sleep_witness :
    ((1 : ℚ) - (ThrottleState.mk 0).last_request_time < RATE_LIMIT_SECONDS)
      ∧ throttle_sleep ⟨0⟩ 1 = RATE_LIMIT_SECONDS :=
  ⟨by norm_num [RATE_LIMIT_SECONDS],
   C2_throttle_full_sleep ⟨0⟩ 1 (by norm_num [RATE_LIMIT_SECONDS])⟩

/-! ### Prompt construction (src/app.py lines 227-254) -/

/-- The placeholder of the prompt template. -/
def placeholder : List Char := "{text}".toList

/-- The template string of `prompt_template` (src/app.py lines 229-250),
transcribed verbatim. -/
def prompt_template : List Char :=
  ("\nYou are an English language translation expert. Your goal is to provide accurate, context-sensitive Urdu translation of English words and sentences while helping learners understand and apply the content effectively. Follow these steps:\n\n### 1. Translation\nTranslate the following into Urdu:\n\"{text}\"\n\n### 2. Pronunciation Guide\nProvide English pronunciation.\n\n### 3. Definition\nGive a simple definition, Urdu meanings, synonyms, antonyms, example sentence, & Roman Urdu.\n\n### 4. Vocabulary Analysis\nTalk about usage, formality level & difficulty.\n\n### 5. Grammar and Structure\nIdentify grammar elements & explain in Urdu.\n\n### 6. Corrections\nSuggest grammar/spelling improvements.\n").toList

/-- Template substitution as performed by `PromptTemplate` formatting:
every occurrence of the placeholder is replaced by the input text. -/
def build_prompt (raw_text : List Char) : List Char :=
  joinWith raw_text (pySplit placeholder prompt_template)

/-- Python `s.count(pat)`: number of non-overlapping occurrences. -/
def count_occurrences (pat s : List Char) : Nat := (pySplit pat s).length - 1

/-- `pat` occurs in `s` at position `i`. -/
def occursAt (pat s : List Char) (i : Nat) : Prop := pat <+: s.drop i

/-- The template text before the placeholder. -/
def tpl_before : List Char :=
  ("\nYou are an English language translation expert. Your goal is to provide accurate, context-sensitive Urdu translation of English words and sentences while helping learners understand and apply the content effectively. Follow these steps:\n\n### 1. Translation\nTranslate the following into Urdu:\n\"").toList

/-- The template text after the placeholder. -/
def tpl_after : List Char :=
  ("\"\n\n### 2. Pronunciation Guide\nProvide English pronunciation.\n\n### 3. Definition\nGive a simple definition, Urdu meanings, synonyms, antonyms, example sentence, & Roman Urdu.\n\n### 4. Vocabulary Analysis\nTalk about usage, formality level & difficulty.\n\n### 5. Grammar and Structure\nIdentify grammar elements & explain in Urdu.\n\n### 6. Corrections\nSuggest grammar/spelling improvements.\n").toList

example : pySplit placeholder prompt_template = [tpl_before, tpl_after] := by decide

/-- Claim C6 as stated is false at a concrete input: for the non-empty
input `"a"` the built prompt contains `"a"` far more than once, because
the fixed template prose itself contains that letter many times. -/
theorem C6_counterexample :
    ("a".toList ≠ []) ∧ count_occurrences ("a".toList) (build_prompt ("a".toList)) ≠ 1 := by
  constructor
  · decide
  · decide

/-- Claim C6 (amended): the template placeholder is filled exactly once —
the template contains `"{text}"` exactly once, the built prompt is the
fixed text before the placeholder, then the verbatim raw text, then the
fixed text after it, and hence contains the raw text at the placeholder
position; the raw text may additionally occur inside the fixed template
prose. -/
theorem C6_prompt_placeholder_once (raw_text : List Char) (_h : raw_text ≠ []) :
    count_occurrences placeholder prompt_template = 1
      ∧ build_prompt raw_text = tpl_before ++ raw_text ++ tpl_after
      ∧ occursAt raw_text (build_prompt raw_text) tpl_before.length := by
  have hsplit : pySplit placeholder prompt_template = [tpl_before, tpl_after] := by decide
  have heq : build_prompt raw_text = tpl_before ++ raw_text ++ tpl_after := by
    unfold build_prompt
    rw [hsplit]
    simp [joinWith]
  refine ⟨by decide, heq, ?_⟩
  unfold occursAt
  rw [heq, List.append_assoc, List.drop_left]
  exact List.prefix_append _ _

theorem C6_prompt_placeholder_once_witness :
    ("resilient".toList ≠ []) ∧ count_occurrences placeholder prompt_template = 1 :=
  ⟨by decide, (C6_prompt_placeholder_once ("resilient".toList) (by decide)).1⟩

/-! ### Input dispatch (src/app.py lines 330-367) -/

/-- The six selectable functions of the sidebar (src/app.py lines
317-324). -/
inductive Category
  | Translation
  | PronunciationGuide
  | Definition
  | GrammarAndStructure
  | VocabularyAnalysis
  | Corrections
deriving DecidableEq

/-- The section title passed to `extract_section` for each option. -/
def section_title : Category → List Char
  | Category.Translation => "Translation".toList
  | Category.PronunciationGuide => "Pronunciation Guide".toList
  | Category.Definition => "Definition".toList
  | Category.GrammarAndStructure => "Grammar and Structure".toList
  | Category.VocabularyAnalysis => "Vocabulary Analysis".toList
  | Category.Corrections => "Corrections".toList

/-- The outcome of one round of the dispatch. -/
inductive Outcome
  | sessionEnded
  | rendered (selected : Category) (body : List Char)
deriving DecidableEq

/-- Number of pipeline (completion) invocations the dispatch performs:
`process_text_with_model` is called exactly when the input is non-empty
and is not `"end"` case-insensitively. -/
def pipeline_invocations (user_input : List Char) : Nat :=
  if user_input = [] then 0
  else if pyLower user_input = ("end".toList) then 0
  else 1

/-- The dispatch of src/app.py lines 330-367: empty input does nothing;
`"end"` under `lower()` ends the session without running the pipeline;
any other input runs the pipeline once and renders the section of the
selected category extracted from the completion result. -/
def handle_input (user_input : List Char) (selected : Category) (result : List Char) :
    Option Outcome :=
  if user_input = [] then none
  else if pyLower user_input = ("end".toList) then some Outcome.sessionEnded
  else some (Outcome.rendered selected (extract_section result (section_title selected)))

/-- Claim C7: input equal to `"end"` under case-insensitive comparison
produces the session-termination outcome and no pipeline invocation; any
other non-empty input performs exactly one pipeline invocation and
renders exactly the selected category section. -/
theorem C7_dispatch (user_input : List Char) (selected : Category) (result : List Char) :
    (pyLower user_input = ("end".toList) →
        handle_input user_input selected result = some Outcome.sessionEnded
          ∧ pipeline_invocations user_input = 0)
      ∧ (user_input ≠ [] → pyLower user_input ≠ ("end".toList) →
          pipeline_invocations user_input = 1
            ∧ handle_input user_input selected result
                = some (Outcome.rendered selected
                    (extract_section result (section_title selected)))) := by
  constructor
  · intro hend
    have hne : user_input ≠ [] := by
      intro h0
      rw [h0] at hend
      exact absurd hend (by decide)
    unfold handle_input pipeline_invocations
    rw [if_neg hne, if_neg hne, if_pos hend, if_pos hend]
    exact ⟨rfl, rfl⟩
  · intro hne hnend
    unfold handle_input pipeline_invocations
    rw [if_neg hne, if_neg hne, if_neg hnend, if_neg hnend]
    exact ⟨rfl, rfl⟩

theorem C7_dispatch_witness :
    (pyLower ("END".toList) = ("end".toList)
      ∧ handle_input ("END".toList) Category.Translation ("r".toList)
          = some Outcome.sessionEnded)
      ∧ (("hello".toList ≠ []) ∧ pipeline_invocations ("hello".toList) = 1) :=
  ⟨⟨by decide,
    ((C7_dispatch ("END".toList) Category.Translation ("r".toList)).1 (by decide)).1⟩,
   ⟨by decide,
    ((C7_dispatch ("hello".toList) Category.Translation ("r".toList)).2
      (by decide) (by decide)).1⟩⟩

/-! ### `text_to_speech` error handling (src/app.py lines 268-282) -/

/-- The fixed audio artifact path (src/app.py line 276). -/
def pronunciation_audio_path : List Char := "pronunciation.mp3".toList

/-- The inline error notice of src/app.py line 281. -/
def audio_error_notice (e : List Char) : List Char :=
  ("Failed to generate audio: ".toList) ++ e

/-- `slow = True if speed == "slow" else False` (src/app.py line 274). -/
def slow_flag (speed : List Char) : Bool :=
  if speed = ("slow".toList) then true else false

/-- Embedding of `text_to_speech`: the external gTTS synthesis and save
is the parameter `synth`, applied to the normalized text and the slow
flag; a raised exception is its `Except.error` case.  The surrounding
`try/except` returns the audio path on success and, on any failure,
shows the inline error notice and returns `None`.  The result pairs the
returned value with the displayed error notices. -/
def text_to_speech (synth : List Char → Bool → Except (List Char) Unit)
    (text speed : List Char) : Option (List Char) × List (List Char) :=
  match synth (clean_text text) (slow_flag speed) with
  | Except.ok _ => (some pronunciation_audio_path, [])
  | Except.error e => (none, [audio_error_notice e])

/-- One display item of the result area. -/
inductive DisplayItem
  | info (s : List Char)
  | errorNote (s : List Char)
  | audioPlayer (path : List Char)
deriving DecidableEq

/-- The Pronunciation Guide branch (src/app.py lines 342-351): show the
extracted section, run `text_to_speech` on it, and append the audio
player only when a path came back. -/
def render_pronunciation (synth : List Char → Bool → Except (List Char) Unit)
    (result speed : List Char) : List DisplayItem :=
  DisplayItem.info (extract_section result ("Pronunciation Guide".toList))
    :: ((text_to_speech synth (extract_section result ("Pronunciation Guide".toList)) speed).2.map
          DisplayItem.errorNote
        ++ match (text_to_speech synth (extract_section result ("Pronunciation Guide".toList)) speed).1 with
           | some p => [DisplayItem.audioPlayer p]
           | none => [])

/-- Claim C8: when the synthesis call on the extracted section fails, the
failure is recovered at the `text_to_speech` boundary: the function
returns normally with no audio artifact and the inline error notice, the
textual section is still shown, the notice is surfaced, and no audio
player appears. -/
theorem C8_tts_failure_recovered (synth : List Char → Bool → Except (List Char) Unit)
    (result speed e : List Char)
    (hfail : synth (clean_text (extract_section result ("Pronunciation Guide".toList)))
        (slow_flag speed) = Except.error e) :
    text_to_speech synth (extract_section result ("Pronunciation Guide".toList)) speed
        = (none, [audio_error_notice e])
      ∧ DisplayItem.info (extract_section result ("Pronunciation Guide".toList))
          ∈ render_pronunciation synth result speed
      ∧ DisplayItem.errorNote (audio_error_notice e)
          ∈ render_pronunciation synth result speed
      ∧ ∀ p, DisplayItem.audioPlayer p ∉ render_pronunciation synth result speed := by
  have htts : text_to_speech synth
      (extract_section result ("Pronunciation Guide".toList)) speed
        = (none, [audio_error_notice e]) := by
    unfold text_to_speech
    rw [hfail]
  have hrender : render_pronunciation synth result speed
      = [DisplayItem.info (extract_section result ("Pronunciation Guide".toList)),
         DisplayItem.errorNote (audio_error_notice e)] := by
    unfold render_pronunciation
    rw [htts]
    rfl
  refine ⟨htts, ?_, ?_, ?_⟩ <;>
    simp [hrender]

theorem C8_tts_failure_recovered_witness :
    ((fun (_ : List Char) (_ : Bool) =>
        (Except.error ("boom".toList) : Except (List Char) Unit))
      (clean_text (extract_section ("r".toList) ("Pronunciation Guide".toList)))
      (slow_flag ("normal".toList)) = Except.error ("boom".toList))
      ∧ DisplayItem.errorNote (audio_error_notice ("boom".toList))
          ∈ render_pronunciation
              (fun _ _ => Except.error ("boom".toList)) ("r".toList) ("normal".toList)
      ∧ DisplayItem.audioPlayer ("pronunciation.mp3".toList)
          ∉ render_pronunciation
              (fun _ _ => Except.error ("boom".toList)) ("r".toList) ("normal".toList) :=
  ⟨rfl,
   (C8_tts_failure_recovered (fun _ _ => Except.error ("boom".toList))
     ("r".toList) ("normal".toList) ("boom".toList) rfl).2.2.1,
   (C8_tts_failure_recovered (fun _ _ => Except.error ("boom".toList))
     ("r".toList) ("normal".toList) ("boom".toList) rfl).2.2.2
     ("pronunciation.mp3".toList)⟩

end EnglishAssistant
